import Mathlib

/-!
Verification of the frame protocol, demultiplexer, stream-id allocator,
conditional-GET cache logic and request dispatch of the proxy/server pair
(`proxy.py`, `server.py`).

Python strings (and the byte strings travelling over sockets, which the
programs immediately `decode()` into text) are modelled as `List Char`.
Each Python function used by the claims is translated into a Lean
definition of the same name; socket endpoints are made explicit by
passing the sequence of received chunks (one list entry per `recv`
result) or by returning the list of frames a function writes.
-/

/-- Python `str` (and decoded `bytes`) are modelled as lists of characters. -/
abbrev PyStr := List Char

/-- Prepend a character to the first piece of a split result.
Helper for the splitters below; the `[]` case never arises because the
splitters always return at least one piece. -/
def consHead (c : Char) : List PyStr → List PyStr
  | [] => [[c]]
  | h :: t => (c :: h) :: t

/-- Model of Python `s.split("|")` (full split on the delimiter character). -/
def splitOnPipe : PyStr → List PyStr
  | [] => [[]]
  | c :: rest => if c = '|' then [] :: splitOnPipe rest else consHead c (splitOnPipe rest)

/-- Model of Python `"|".join(parts)`. -/
def joinPipe : List PyStr → PyStr
  | [] => []
  | [x] => x
  | x :: y :: xs => x ++ '|' :: joinPipe (y :: xs)

/-- Model of Python `s.split("|", 2)` unpacked into exactly three variables:
`some (a, b, rest)` when the string holds at least two delimiters, `none`
when the unpacking would raise `ValueError`. -/
def pySplit2 (s : PyStr) : Option (PyStr × PyStr × PyStr) :=
  match splitOnPipe s with
  | a :: b :: c :: rest => some (a, b, joinPipe (c :: rest))
  | _ => none

/-- Model of Python `s.split("\r\n")`. -/
def splitCRLF : PyStr → List PyStr
  | [] => [[]]
  | '\r' :: '\n' :: rest => [] :: splitCRLF rest
  | c :: rest => consHead c (splitCRLF rest)

/-- Model of Python `"\r\n".join(parts)`. -/
def joinCRLF : List PyStr → PyStr
  | [] => []
  | [x] => x
  | x :: y :: xs => x ++ '\r' :: '\n' :: joinCRLF (y :: xs)

/-- Model of Python `s.split(":")`. -/
def splitColon : PyStr → List PyStr
  | [] => [[]]
  | c :: rest => if c = ':' then [] :: splitColon rest else consHead c (splitColon rest)

/-- Model of Python `s.split("\r\n\r\n", 1)` unpacked into two variables:
`some (before, after)` at the first occurrence, `none` when the separator
is absent (the unpacking would raise `ValueError`). -/
def splitCRLF2Once : PyStr → Option (PyStr × PyStr)
  | [] => none
  | '\r' :: '\n' :: '\r' :: '\n' :: rest => some ([], rest)
  | c :: rest => (splitCRLF2Once rest).map (fun p => (c :: p.1, p.2))

/-- Model of Python `s.split(": ", 1)` unpacked into two variables. -/
def splitColonSpaceOnce : PyStr → Option (PyStr × PyStr)
  | [] => none
  | ':' :: ' ' :: rest => some ([], rest)
  | c :: rest => (splitColonSpaceOnce rest).map (fun p => (c :: p.1, p.2))

/-- Raw split on single whitespace characters (keeps empty pieces). -/
def splitWsRaw : PyStr → List PyStr
  | [] => [[]]
  | c :: rest => if c.isWhitespace then [] :: splitWsRaw rest else consHead c (splitWsRaw rest)

/-- Model of Python `s.split()` (no arguments: whitespace runs, empties dropped). -/
def pySplitWs (s : PyStr) : List PyStr := (splitWsRaw s).filter (fun t => t ≠ [])

/-- Model of Python `s.strip()` (and of the whitespace stripping `int()` performs). -/
def pyStrip (s : PyStr) : PyStr :=
  ((s.dropWhile Char.isWhitespace).reverse.dropWhile Char.isWhitespace).reverse

/-- Value of a non-empty all-digit string, `none` otherwise. -/
def digitsVal : PyStr → Option Nat
  | [] => none
  | c :: rest =>
    if (c :: rest).all Char.isDigit then
      some ((c :: rest).foldl (fun acc k => 10 * acc + (k.toNat - 48)) 0)
    else none

/-- Model of Python `int(s)`: strip whitespace, optional sign, decimal digits;
`none` models the `ValueError` raised on anything else. -/
def pyInt? (s : PyStr) : Option Int :=
  match pyStrip s with
  | [] => none
  | c :: rest =>
    if c = '-' then
      match digitsVal rest with
      | some n => some (-(n : Int))
      | none => none
    else if c = '+' then
      match digitsVal rest with
      | some n => some ((n : Int))
      | none => none
    else
      match digitsVal (c :: rest) with
      | some n => some ((n : Int))
      | none => none

/-- Little-endian decimal digits of a positive `n`; the fuel argument (any
bound on `n`, `n` itself suffices) makes the recursion structural. -/
def natDigitsAux : Nat → Nat → List Char
  | 0, _ => []
  | _ + 1, 0 => []
  | fuel + 1, n + 1 => Nat.digitChar ((n + 1) % 10) :: natDigitsAux fuel ((n + 1) / 10)

/-- Model of Python `str(n)` for a non-negative integer (standard decimal). -/
def natToPyStr (n : Nat) : PyStr :=
  if n = 0 then ['0'] else (natDigitsAux n n).reverse

/-- Model of Python `str(i)` / f-string formatting of an `int`. -/
def intToPyStr (i : Int) : PyStr :=
  if i < 0 then '-' :: natToPyStr i.natAbs else natToPyStr i.toNat

-- ### The origin server (`server.py`)

/-- Model of Python `range(0, stop, step)` for `0 < step` (the number of
elements is the ceiling of `stop / step`). -/
def pyRange (stop step : Nat) : List Nat :=
  (List.range ((stop + step - 1) / step)).map (fun j => j * step)

namespace Server

/-- Server constant `MAX_CHUNK_SIZE` (`server.py` line 81). -/
def MAX_CHUNK_SIZE : Nat := 1024

/-- The frame built by `sendFramedResponse` (`server.py` line 318):
the f-string `stream_id|end_stream|chunk`. -/
def mkFrame (stream_id : Int) (end_stream : Nat) (chunk : PyStr) : PyStr :=
  intToPyStr stream_id ++ '|' :: (natToPyStr end_stream ++ '|' :: chunk)

/-- Model of `sendFramedResponse` (`server.py` lines 296-325): the list of
frames written to the socket, in order. `maxChunkSize` stands for the
configured global `MAX_CHUNK_SIZE`; the per-connection lock and the socket
itself do not affect which frames are produced. -/
def sendFramedResponse (maxChunkSize : Nat) (stream_id : Int) (response : PyStr) :
    List PyStr :=
  (pyRange response.length maxChunkSize).map (fun i =>
    let chunk := (response.drop i).take maxChunkSize
    let end_stream : Nat := if response.length ≤ i + maxChunkSize then 1 else 0
    mkFrame stream_id end_stream chunk)

/-- Model of `extractStreamIdAndCleanRequest` (`server.py` lines 266-293).
When the first line starts with `STREAM-ID:` but the value after the colon
does not parse as an integer, the `ValueError` branch keeps `stream_id =
None` and leaves `lines` unsliced. -/
def extractStreamIdAndCleanRequest (request : PyStr) : Option Int × PyStr :=
  let lines := splitCRLF request
  if ("STREAM-ID:".data).isPrefixOf lines.headI then
    match pyInt? (pyStrip ((splitColon lines.headI).getD 1 [])) with
    | some n => (some n, joinCRLF lines.tail)
    | none => (none, joinCRLF lines)
  else (none, joinCRLF lines)

/-- How `handleRequestThread` replies: one framed delivery or one plain write. -/
inductive SendMode where
  | framed (streamId : Int) (frames : List PyStr)
  | regular (response : PyStr)
deriving DecidableEq

/-- Model of `handleRequestThread` (`server.py` lines 344-370). The HTTP
response production (`handleRequest`: file lookup, conditional check,
status mapping) is the external collaborator of the spec and is passed in
as `handler`. -/
def handleRequestThread (handler : PyStr → PyStr) (request : PyStr) : SendMode :=
  let p := extractStreamIdAndCleanRequest request
  let response := handler p.2
  match p.1 with
  | some streamId => .framed streamId (sendFramedResponse MAX_CHUNK_SIZE streamId response)
  | none => .regular response

end Server

-- ### The proxy (`proxy.py`)

namespace Proxy

/-- Proxy constant `VERSION` (`proxy.py` line 77). -/
def VERSION : PyStr := "HTTP/1.1".data

/-- Proxy constant `DEFAULT_FILE` (`proxy.py` line 83). -/
def DEFAULT_FILE : PyStr := "test.html".data

/-- One entry of the in-memory cache (`proxy.py` line 104-105):
the dict `last_modified` / `content` stored per filename. -/
structure CacheEntry where
  last_modified : PyStr
  content : PyStr
deriving DecidableEq

/-- The cache dict, keyed by filename. Modelled as an association list in
which the most recent `store` for a key shadows older ones. -/
abbrev Cache := List (PyStr × CacheEntry)

/-- Model of `cache.get(filename)`. -/
def cacheGet (cache : Cache) (filename : PyStr) : Option CacheEntry :=
  (cache.find? (fun e => e.1 == filename)).map (fun e => e.2)

/-- Model of `cache[filename] = entry` (unconditional overwrite). -/
def cacheSet (cache : Cache) (filename : PyStr) (entry : CacheEntry) : Cache :=
  (filename, entry) :: cache

/-- Titles from the `STATUS` table (`proxy.py` lines 89-102). -/
def statusTitle : Nat → PyStr
  | 200 => "OK".data
  | 304 => "Not Modified".data
  | 403 => "Forbidden".data
  | 404 => "Not Found".data
  | 500 => "Internal Server Error".data
  | 505 => "HTTP Version Not Supported".data
  | _ => []

/-- Body from the `STATUS` table for 500. -/
def STATUS_500_BODY : PyStr := "<h1>500 Internal Server Error</h1>".data

/-- Body from the `STATUS` table for 505. -/
def STATUS_505_BODY : PyStr := "<h1>505 HTTP Version Not Supported</h1>".data

/-- Stand-in for the text of a caught Python exception (`str(e)`); the
claims never depend on the exact wording, only on which handler runs. -/
def EXC_TEXT : PyStr := "exception".data

/-- Model of `createResponse` (`proxy.py` lines 111-139). `now` stands for
the `formatdate()` result used in the `Date` header. -/
def createResponse (now : PyStr) (statusCode : Nat) (body : PyStr) : PyStr :=
  let statusLine := VERSION ++ ' ' :: (natToPyStr statusCode ++ ' ' :: statusTitle statusCode)
  let headerLines :=
    "Date: ".data ++ now ++ '\r' :: '\n' :: ("Server: TestServer/1.0".data ++ ['\r', '\n']) ++
      (if body = [] then []
       else "Content-Length: ".data ++ natToPyStr body.length ++
         '\r' :: '\n' :: ("Content-Type: text/html".data ++ ['\r', '\n']))
  statusLine ++ '\r' :: '\n' :: (headerLines ++ '\r' :: '\n' :: body)

/-- Model of `handle200` (`proxy.py` lines 142-169): parse out the body,
find a `Last-Modified` header (falling back to `now`), store the entry and
build the 200 reply. `none` models an exception escaping to the caller
(no `CRLFCRLF` separator, or a matched header line without `": "`). -/
def handle200 (now : PyStr) (cache : Cache) (filename : PyStr) (response : PyStr) :
    Option (PyStr × Cache) :=
  match splitCRLF2Once response with
  | none => none
  | some (headersPart, body) =>
    match (splitCRLF headersPart).find?
        (fun line => ("last-modified:".data).isPrefixOf (line.map Char.toLower)) with
    | none =>
      some (createResponse now 200 body, cacheSet cache filename ⟨now, body⟩)
    | some line =>
      match splitColonSpaceOnce line with
      | none => none
      | some p =>
        let lastModified := if p.2 = [] then now else p.2
        some (createResponse now 200 body, cacheSet cache filename ⟨lastModified, body⟩)

/-- Model of `handle304` (`proxy.py` lines 172-183); `none` models the
`KeyError` raised when the filename is not cached. -/
def handle304 (now : PyStr) (cache : Cache) (filename : PyStr) : Option PyStr :=
  (cacheGet cache filename).map (fun cached => createResponse now 200 cached.content)

/-- Model of `handle505` (`proxy.py` lines 186-194). -/
def handle505 (now : PyStr) : PyStr := createResponse now 505 STATUS_505_BODY

/-- Model of `handle500` (`proxy.py` lines 197-210). -/
def handle500 (now : PyStr) (error : PyStr) : PyStr :=
  createResponse now 500 (STATUS_500_BODY ++ "<p>".data ++ error ++ "</p>".data)

/-- The header lines `createRequest` joins: the given request line plus,
when a cache entry exists, the appended `If-Modified-Since` header. -/
def createRequestLines (headers : List PyStr) (cached : Option CacheEntry) : List PyStr :=
  headers ++
    match cached with
    | some c => ["If-Modified-Since: ".data ++ c.last_modified]
    | none => []

/-- Model of `createRequest` (`proxy.py` lines 213-226). -/
def createRequest (headers : List PyStr) (cached : Option CacheEntry) : PyStr :=
  joinCRLF (createRequestLines headers cached) ++ "\r\n\r\n".data

/-- Model of `hasCompleteFrame` (`proxy.py` lines 229-239). -/
def hasCompleteFrame (buffer : PyStr) : Bool :=
  decide (2 ≤ buffer.count '|')

/-- Model of `extractFrame` (`proxy.py` lines 242-256): split on the first
two delimiters, rebuild the frame from the three pieces and clear the
buffer; on a `ValueError` (fewer than two delimiters) keep the buffer. -/
def extractFrame (buffer : PyStr) : Option PyStr × PyStr :=
  match pySplit2 buffer with
  | some (sidStr, endStr, rest) => (some (sidStr ++ '|' :: (endStr ++ '|' :: rest)), [])
  | none => (none, buffer)

/-- Model of `parseFrame` (`proxy.py` lines 259-273). -/
def parseFrame (frame : PyStr) : Option (Int × Int × PyStr) :=
  match pySplit2 frame with
  | some (sidStr, endStr, payload) =>
    match pyInt? sidStr, pyInt? endStr with
    | some stream_id, some end_flag => some (stream_id, end_flag, payload)
    | _, _ => none
  | none => none

/-- Outcome of the inner `while hasCompleteFrame(buffer)` loop of
`receiveFramedResponse`: either the loop fell through (with the current
chunk list and buffer) or an end-flagged frame returned the joined result. -/
inductive DrainResult where
  | done (responseChunks : List PyStr) (buffer : PyStr)
  | finished (result : PyStr)
deriving DecidableEq

/-- One structural-fuel unrolling of the inner `while` loop of
`receiveFramedResponse` (`proxy.py` lines 296-311). A successful
`extractFrame` always empties the buffer, so the loop body runs at most
once per received chunk and a fuel of `buffer.length + 1` (used by
`drainBuffer`) is never exhausted. -/
def drainFuel (expectedStreamId : Int) : Nat → List PyStr → PyStr → DrainResult
  | 0, responseChunks, buffer => .done responseChunks buffer
  | fuel + 1, responseChunks, buffer =>
    if hasCompleteFrame buffer then
      match extractFrame buffer with
      | (none, buf) => .done responseChunks buf
      | (some frame, buf) =>
        match parseFrame frame with
        | none => drainFuel expectedStreamId fuel responseChunks buf
        | some (stream_id, end_flag, payload) =>
          if stream_id ≠ expectedStreamId then
            drainFuel expectedStreamId fuel responseChunks buf
          else
            let chunks := responseChunks ++ [payload]
            if end_flag = 1 then .finished chunks.flatten
            else drainFuel expectedStreamId fuel chunks buf
    else .done responseChunks buffer

/-- The inner `while hasCompleteFrame(buffer)` loop of
`receiveFramedResponse`. -/
def drainBuffer (expectedStreamId : Int) (responseChunks : List PyStr) (buffer : PyStr) :
    DrainResult :=
  drainFuel expectedStreamId (buffer.length + 1) responseChunks buffer

/-- The outer `recv` loop of `receiveFramedResponse` (`proxy.py` lines
287-313): `chunks` is the sequence of `recv` results; the end of the list
models the peer closing the connection, upon which the chunks joined so
far are returned. -/
def receiveLoop (expectedStreamId : Int) (buffer : PyStr) (responseChunks : List PyStr) :
    List PyStr → PyStr
  | [] => responseChunks.flatten
  | chunk :: rest =>
    match drainBuffer expectedStreamId responseChunks (buffer ++ chunk) with
    | .finished result => result
    | .done chunks buf => receiveLoop expectedStreamId buf chunks rest

/-- Model of `receiveFramedResponse` (`proxy.py` lines 276-313). -/
def receiveFramedResponse (expectedStreamId : Int) (chunks : List PyStr) : PyStr :=
  receiveLoop expectedStreamId [] [] chunks

/-- One `next()` on `stream_id_gen = itertools.count(1)` (`proxy.py` line
108): the yielded id and the successor state. -/
def stream_id_gen_next (state : Nat) : Nat × Nat := (state, state + 1)

/-- The ids yielded by `n` successive `next(stream_id_gen)` calls starting
from counter state `state`. -/
def allocStreamIds : Nat → Nat → List Nat
  | _, 0 => []
  | state, n + 1 =>
    (stream_id_gen_next state).1 :: allocStreamIds (stream_id_gen_next state).2 n

/-- The ids yielded by the first `n` allocations of `stream_id_gen`,
which `itertools.count(1)` starts at 1. -/
def streamIdsIssued (n : Nat) : List Nat := allocStreamIds 1 n

/-- The header list `handleRequest` builds (`proxy.py` lines 363-365):
the f-string `GET path VERSION`. -/
def requestHeaders (path : PyStr) : List PyStr :=
  ["GET ".data ++ path ++ ' ' :: VERSION]

/-- The filename `handleRequest` resolves (`proxy.py` lines 367-372):
root maps to `DEFAULT_FILE`, then leading slashes are stripped. -/
def fileNameOf (path : PyStr) : PyStr :=
  (if path = "/".data ∨ path = [] then DEFAULT_FILE else path).dropWhile (fun c => c = '/')

/-- Model of `handleRequest` (`proxy.py` lines 342-391). `now` stands for
`formatdate()`, `upstream` for the round trip `sendRequest` performs (the
reassembled response the origin returns for the framed request). Returns
the reply for the client together with the cache after the call; every
caught exception surfaces as `handle500`. -/
def handleRequest (now : PyStr) (cache : Cache) (upstream : PyStr → PyStr)
    (request : PyStr) : PyStr × Cache :=
  match pySplitWs ((splitCRLF request).headI) with
  | [_method, path, version] =>
    if version ≠ VERSION then (handle505 now, cache)
    else
      let fileName := fileNameOf path
      let cached := cacheGet cache fileName
      let response := upstream (createRequest (requestHeaders path) cached)
      match (pySplitWs ((splitCRLF response).headI))[1]? with
      | none => (handle500 now EXC_TEXT, cache)
      | some tok =>
        match pyInt? tok with
        | none => (handle500 now EXC_TEXT, cache)
        | some statusCode =>
          if statusCode = 200 then
            match handle200 now cache fileName response with
            | some rc => rc
            | none => (handle500 now EXC_TEXT, cache)
          else if statusCode = 304 ∧ cached.isSome then
            match handle304 now cache fileName with
            | some r => (r, cache)
            | none => (handle500 now EXC_TEXT, cache)
          else (response, cache)
  | _ => (handle500 now EXC_TEXT, cache)

end Proxy

-- ### Derived definitions used to state the claims

/-- The chunk list `sendFramedResponse` slices the response into
(`server.py` line 312): `response[i : i + maxChunkSize]` for each loop
index `i`. -/
def Server.responseChunks (maxChunkSize : Nat) (response : PyStr) : List PyStr :=
  (pyRange response.length maxChunkSize).map (fun i => (response.drop i).take maxChunkSize)

/-- Whether a received chunk is a well-formed frame whose stream id matches
the expected one (the frames `receiveFramedResponse` accumulates rather
than skips). -/
def Proxy.frameForStream (expectedStreamId : Int) (c : PyStr) : Bool :=
  match Proxy.parseFrame c with
  | some t => t.1 == expectedStreamId
  | none => false

/-- The frame lists a single logical response can be split into: every
chunk is wrapped with end flag 0 except the last, which carries end flag 1;
the second index is the concatenation of all payload chunks. -/
inductive FrameSeq (sid : Int) : List PyStr → PyStr → Prop where
  | nil : FrameSeq sid [] []
  | last (p : PyStr) : FrameSeq sid [Server.mkFrame sid 1 p] p
  | more (p rest : PyStr) (fs : List PyStr) (h : FrameSeq sid fs rest) :
      FrameSeq sid (Server.mkFrame sid 0 p :: fs) (p ++ rest)

-- ### Basic lemmas about the splitters

theorem consHead_ne_nil (c : Char) (l : List PyStr) : consHead c l ≠ [] := by
  cases l <;> simp [consHead]

theorem splitOnPipe_ne_nil (s : PyStr) : splitOnPipe s ≠ [] := by
  induction s with
  | nil => simp [splitOnPipe]
  | cons c rest ih =>
    rw [splitOnPipe]
    split
    · simp
    · exact consHead_ne_nil _ _

theorem joinPipe_consHead (c : Char) (l : List PyStr) (h : l ≠ []) :
    joinPipe (consHead c l) = c :: joinPipe l := by
  match l with
  | [] => exact absurd rfl h
  | [x] => rfl
  | x :: y :: xs => rfl

theorem joinPipe_splitOnPipe (s : PyStr) : joinPipe (splitOnPipe s) = s := by
  induction s with
  | nil => rfl
  | cons c rest ih =>
    rw [splitOnPipe]
    split
    · rename_i hc
      obtain ⟨x, xs, hx⟩ := List.exists_cons_of_ne_nil (splitOnPipe_ne_nil rest)
      rw [hx] at ih ⊢
      subst hc
      simp [joinPipe, ih]
    · rw [joinPipe_consHead _ _ (splitOnPipe_ne_nil rest), ih]

theorem splitOnPipe_no_pipe (a : PyStr) (h : '|' ∉ a) : splitOnPipe a = [a] := by
  induction a with
  | nil => rfl
  | cons c rest ih =>
    rw [splitOnPipe]
    rw [if_neg (by intro hc; exact h (hc ▸ List.mem_cons_self c rest))]
    rw [ih (fun hm => h (List.mem_cons_of_mem c hm))]
    rfl

theorem splitOnPipe_append_pipe (a r : PyStr) (h : '|' ∉ a) :
    splitOnPipe (a ++ '|' :: r) = a :: splitOnPipe r := by
  induction a with
  | nil => simp [splitOnPipe]
  | cons c rest ih =>
    have hc : c ≠ '|' := fun hc => h (hc ▸ List.mem_cons_self c rest)
    rw [List.cons_append, splitOnPipe, if_neg hc,
      ih (fun hm => h (List.mem_cons_of_mem c hm))]
    rfl

theorem length_consHead (c : Char) (l : List PyStr) (h : l ≠ []) :
    (consHead c l).length = l.length := by
  match l with
  | [] => exact absurd rfl h
  | x :: xs => rfl

theorem splitOnPipe_length (s : PyStr) :
    (splitOnPipe s).length = s.count '|' + 1 := by
  induction s with
  | nil => rfl
  | cons c rest ih =>
    rw [splitOnPipe]
    split
    · rename_i hc
      subst hc
      simp [List.count_cons, ih]
    · rename_i hc
      rw [length_consHead _ _ (splitOnPipe_ne_nil rest), ih]
      simp [List.count_cons, hc]

-- ### Decimal printing and parsing round-trip

theorem digitChar_isDigit : ∀ r < 10, (Nat.digitChar r).isDigit = true := by decide

theorem digitChar_val : ∀ r < 10, (Nat.digitChar r).toNat - 48 = r := by decide

theorem isDigit_not_ws {c : Char} (h : c.isDigit = true) : c.isWhitespace = false := by
  by_contra hw
  simp only [Bool.not_eq_false, Char.isWhitespace] at hw
  rcases Bool.or_eq_true_iff.mp hw with hor | h4
  · rcases Bool.or_eq_true_iff.mp hor with hor2 | h3
    · rcases Bool.or_eq_true_iff.mp hor2 with h1 | h2
      · rw [show c = ' ' by exact decide_eq_true_eq.mp h1] at h; exact absurd h (by decide)
      · rw [show c = '\t' by exact decide_eq_true_eq.mp h2] at h; exact absurd h (by decide)
    · rw [show c = '\r' by exact decide_eq_true_eq.mp h3] at h; exact absurd h (by decide)
  · rw [show c = '\n' by exact decide_eq_true_eq.mp h4] at h; exact absurd h (by decide)

theorem isDigit_ne_minus {c : Char} (h : c.isDigit = true) : c ≠ '-' := by
  intro hc; rw [hc] at h; exact absurd h (by decide)

theorem isDigit_ne_plus {c : Char} (h : c.isDigit = true) : c ≠ '+' := by
  intro hc; rw [hc] at h; exact absurd h (by decide)

theorem isDigit_ne_pipe {c : Char} (h : c.isDigit = true) : c ≠ '|' := by
  intro hc; rw [hc] at h; exact absurd h (by decide)

theorem natDigitsAux_zero_num (f : Nat) : natDigitsAux f 0 = [] := by
  cases f <;> rfl

theorem natDigitsAux_all_digits (n : Nat) :
    ∀ f, (natDigitsAux f n).all Char.isDigit = true := by
  induction n using Nat.strong_induction_on with
  | _ n ih =>
    intro f
    match f, n with
    | 0, _ => rfl
    | f + 1, 0 => rfl
    | f + 1, n + 1 =>
      rw [natDigitsAux]
      simp only [List.all_cons, Bool.and_eq_true]
      exact ⟨digitChar_isDigit _ (Nat.mod_lt _ (by norm_num)),
        ih ((n + 1) / 10) (Nat.div_lt_self (Nat.succ_pos n) (by norm_num)) f⟩

theorem natDigitsAux_fuel (n : Nat) :
    ∀ f g, n ≤ f → n ≤ g → natDigitsAux f n = natDigitsAux g n := by
  induction n using Nat.strong_induction_on with
  | _ n ih =>
    intro f g hf hg
    match n, f, g with
    | 0, f, g => rw [natDigitsAux_zero_num, natDigitsAux_zero_num]
    | n + 1, f + 1, g + 1 =>
      rw [natDigitsAux, natDigitsAux]
      have hlt : (n + 1) / 10 < n + 1 := Nat.div_lt_self (Nat.succ_pos n) (by norm_num)
      rw [ih ((n + 1) / 10) hlt f g (by omega) (by omega)]

theorem foldDigits_natDigitsAux (n : Nat) :
    ∀ f, n ≤ f →
      ((natDigitsAux f n).reverse).foldl (fun acc k => 10 * acc + (k.toNat - 48)) 0 = n := by
  induction n using Nat.strong_induction_on with
  | _ n ih =>
    intro f hf
    match n, f with
    | 0, f => rw [natDigitsAux_zero_num]; rfl
    | n + 1, f + 1 =>
      rw [natDigitsAux]
      rw [List.reverse_cons, List.foldl_append]
      have hlt : (n + 1) / 10 < n + 1 := Nat.div_lt_self (Nat.succ_pos n) (by norm_num)
      rw [ih ((n + 1) / 10) hlt f (by omega)]
      simp only [List.foldl_cons, List.foldl_nil]
      rw [digitChar_val _ (Nat.mod_lt _ (by norm_num))]
      omega

theorem natToPyStr_all_digits (n : Nat) : (natToPyStr n).all Char.isDigit = true := by
  rw [natToPyStr]
  split
  · decide
  · rw [List.all_reverse]; exact natDigitsAux_all_digits n n

theorem natToPyStr_ne_nil (n : Nat) : natToPyStr n ≠ [] := by
  rw [natToPyStr]
  split
  · simp
  · rename_i h
    match hn : n, h with
    | n + 1, _ =>
      rw [natDigitsAux]
      simp

theorem digitsVal_natToPyStr (n : Nat) : digitsVal (natToPyStr n) = some n := by
  obtain ⟨c, rest, hc⟩ := List.exists_cons_of_ne_nil (natToPyStr_ne_nil n)
  rw [hc, digitsVal, if_pos (hc ▸ natToPyStr_all_digits n), ← hc]
  rw [natToPyStr]
  split
  · rename_i h0; subst h0; rfl
  · rename_i h0
    rw [foldDigits_natDigitsAux n n (le_refl n)]

-- ### Remaining string lemmas

theorem dropWhile_eq_self_of_all {p : Char → Bool} {l : PyStr}
    (h : ∀ c ∈ l, p c = false) : l.dropWhile p = l := by
  cases l with
  | nil => rfl
  | cons c t =>
    rw [List.dropWhile_cons, h c (List.mem_cons_self c t)]
    simp

theorem pyStrip_of_no_ws {s : PyStr} (h : ∀ c ∈ s, c.isWhitespace = false) :
    pyStrip s = s := by
  rw [pyStrip, dropWhile_eq_self_of_all h,
    dropWhile_eq_self_of_all (fun c hc => h c (List.mem_reverse.mp hc)), List.reverse_reverse]

theorem all_eq_forall_mem {p : Char → Bool} {l : PyStr} (h : l.all p = true) :
    ∀ c ∈ l, p c = true := fun c hc => List.all_eq_true.mp h c hc

theorem pyInt?_natToPyStr (n : Nat) : pyInt? (natToPyStr n) = some (n : Int) := by
  have hall := all_eq_forall_mem (natToPyStr_all_digits n)
  have hstrip : pyStrip (natToPyStr n) = natToPyStr n :=
    pyStrip_of_no_ws (fun c hc => isDigit_not_ws (hall c hc))
  obtain ⟨c, rest, hc⟩ := List.exists_cons_of_ne_nil (natToPyStr_ne_nil n)
  have hcd : c.isDigit = true := hall c (by rw [hc]; exact List.mem_cons_self c rest)
  have hdv : digitsVal (c :: rest) = some n := hc ▸ digitsVal_natToPyStr n
  rw [pyInt?, hstrip, hc]
  simp only [if_neg (isDigit_ne_minus hcd), if_neg (isDigit_ne_plus hcd), hdv]

theorem pyInt?_intToPyStr (i : Int) : pyInt? (intToPyStr i) = some i := by
  rw [intToPyStr]
  split
  · rename_i hneg
    have hall := all_eq_forall_mem (natToPyStr_all_digits i.natAbs)
    have hstrip : pyStrip ('-' :: natToPyStr i.natAbs) = '-' :: natToPyStr i.natAbs := by
      refine pyStrip_of_no_ws ?_
      intro c hc
      rcases List.mem_cons.mp hc with h1 | h2
      · subst h1; decide
      · exact isDigit_not_ws (hall c h2)
    rw [pyInt?, hstrip]
    simp [digitsVal_natToPyStr, abs_of_neg hneg]
  · rename_i hpos
    rw [pyInt?_natToPyStr]
    congr 1
    omega

theorem pipe_not_mem_natToPyStr (n : Nat) : '|' ∉ natToPyStr n := by
  intro hm
  exact isDigit_ne_pipe (all_eq_forall_mem (natToPyStr_all_digits n) _ hm) rfl

theorem pipe_not_mem_intToPyStr (i : Int) : '|' ∉ intToPyStr i := by
  rw [intToPyStr]
  split
  · intro hm
    rcases List.mem_cons.mp hm with h1 | h2
    · exact absurd h1.symm (by decide)
    · exact pipe_not_mem_natToPyStr _ h2
  · exact pipe_not_mem_natToPyStr _

-- ### Frame codec lemmas

theorem pySplit2_rejoin {s : PyStr} (h : 2 ≤ s.count '|') :
    ∃ a b r, pySplit2 s = some (a, b, r) ∧ a ++ '|' :: (b ++ '|' :: r) = s := by
  have hlen : 3 ≤ (splitOnPipe s).length := by
    rw [splitOnPipe_length]; omega
  match hs : splitOnPipe s with
  | [] => rw [hs] at hlen; simp at hlen
  | [a] => rw [hs] at hlen; simp at hlen
  | [a, b] => rw [hs] at hlen; simp at hlen
  | a :: b :: c :: rest =>
    refine ⟨a, b, joinPipe (c :: rest), ?_, ?_⟩
    · rw [pySplit2, hs]
    · have hj : joinPipe (a :: b :: c :: rest) = s := by
        rw [← hs, joinPipe_splitOnPipe]
      rw [← hj, joinPipe, joinPipe]

theorem pySplit2_none_of_count {s : PyStr} (h : s.count '|' < 2) :
    pySplit2 s = none := by
  have hlen : (splitOnPipe s).length < 3 := by
    rw [splitOnPipe_length]; omega
  rw [pySplit2]
  match hs : splitOnPipe s with
  | [] => rfl
  | [a] => rfl
  | [a, b] => rfl
  | a :: b :: c :: rest => rw [hs] at hlen; simp at hlen; omega

theorem extractFrame_of_count {s : PyStr} (h : 2 ≤ s.count '|') :
    Proxy.extractFrame s = (some s, []) := by
  obtain ⟨a, b, r, hsp, hrejoin⟩ := pySplit2_rejoin h
  rw [Proxy.extractFrame, hsp]
  simp only [hrejoin]

theorem extractFrame_of_count_lt {s : PyStr} (h : s.count '|' < 2) :
    Proxy.extractFrame s = (none, s) := by
  rw [Proxy.extractFrame, pySplit2_none_of_count h]

theorem pySplit2_mkFrame (stream_id : Int) (end_stream : Nat) (chunk : PyStr) :
    pySplit2 (Server.mkFrame stream_id end_stream chunk) =
      some (intToPyStr stream_id, natToPyStr end_stream, chunk) := by
  rw [Server.mkFrame, pySplit2]
  rw [splitOnPipe_append_pipe _ _ (pipe_not_mem_intToPyStr stream_id),
    splitOnPipe_append_pipe _ _ (pipe_not_mem_natToPyStr end_stream)]
  obtain ⟨p, ps, hp⟩ := List.exists_cons_of_ne_nil (splitOnPipe_ne_nil chunk)
  rw [hp]
  have hjc : joinPipe (p :: ps) = chunk := by rw [← hp, joinPipe_splitOnPipe]
  show some (intToPyStr stream_id, natToPyStr end_stream, joinPipe (p :: ps)) =
    some (intToPyStr stream_id, natToPyStr end_stream, chunk)
  rw [hjc]

theorem parseFrame_mkFrame (stream_id : Int) (end_stream : Nat) (chunk : PyStr) :
    Proxy.parseFrame (Server.mkFrame stream_id end_stream chunk) =
      some (stream_id, (end_stream : Int), chunk) := by
  rw [Proxy.parseFrame, pySplit2_mkFrame]
  simp only [pyInt?_intToPyStr, pyInt?_natToPyStr]

theorem mkFrame_count (stream_id : Int) (end_stream : Nat) (chunk : PyStr) :
    2 ≤ (Server.mkFrame stream_id end_stream chunk).count '|' := by
  rw [Server.mkFrame]
  simp [List.count_append, List.count_cons]
  omega

theorem parseFrame_some_count {f : PyStr} {t : Int × Int × PyStr}
    (h : Proxy.parseFrame f = some t) : 2 ≤ f.count '|' := by
  by_contra hc
  rw [Proxy.parseFrame, pySplit2_none_of_count (by omega)] at h
  exact Option.noConfusion h

-- ### Chunking lemmas

theorem pyRange_zero (step : Nat) : pyRange 0 step = [] := by
  rw [pyRange]
  match step with
  | 0 => rfl
  | s + 1 =>
    have h : (0 + (s + 1) - 1) / (s + 1) = 0 := Nat.div_eq_of_lt (by omega)
    rw [h]
    rfl

theorem pyRange_pos (stop step : Nat) (hstep : 0 < step) (hstop : 0 < stop) :
    pyRange stop step = 0 :: (pyRange (stop - step) step).map (fun i => i + step) := by
  have hq1 : (stop + step - 1) / step = (stop - 1) / step + 1 := by
    have : stop + step - 1 = (stop - 1) + step := by omega
    rw [this, Nat.add_div_right _ hstep]
  have hq2 : (stop - step + step - 1) / step = (stop - 1) / step := by
    rcases le_or_lt step stop with hle | hlt
    · have : stop - step + step - 1 = stop - 1 := by omega
      rw [this]
    · have h0 : stop - step = 0 := by omega
      rw [h0]
      rw [Nat.div_eq_of_lt (by omega), Nat.div_eq_of_lt (by omega)]
  rw [pyRange, pyRange, hq1, hq2, List.range_succ_eq_map, List.map_cons, List.map_map,
    List.map_map, Nat.zero_mul]
  congr 1
  apply List.map_congr_left
  intro j hj
  simp [Function.comp, Nat.succ_mul]

theorem sendFramedResponse_nil (k : Nat) (sid : Int) :
    Server.sendFramedResponse k sid [] = [] := by
  rw [Server.sendFramedResponse]
  simp [pyRange_zero]

theorem responseChunks_nil (k : Nat) : Server.responseChunks k [] = [] := by
  rw [Server.responseChunks]
  simp [pyRange_zero]

theorem sendFramedResponse_peel (k : Nat) (sid : Int) (s : PyStr)
    (hk : 0 < k) (hs : s ≠ []) :
    Server.sendFramedResponse k sid s =
      Server.mkFrame sid (if s.length ≤ k then 1 else 0) (s.take k) ::
        Server.sendFramedResponse k sid (s.drop k) := by
  have hlen : 0 < s.length := List.length_pos.mpr hs
  rw [Server.sendFramedResponse, Server.sendFramedResponse,
    pyRange_pos _ _ hk hlen, List.map_cons, List.map_map, List.length_drop]
  congr 1
  · simp
  · apply List.map_congr_left
    intro i hi
    simp only [Function.comp_apply]
    have hdrop : (s.drop k).drop i = s.drop (i + k) := by
      rw [List.drop_drop, Nat.add_comm]
    rw [hdrop]
    by_cases hle : s.length ≤ i + k + k
    · rw [if_pos (by omega), if_pos (by omega)]
    · rw [if_neg (by omega), if_neg (by omega)]

theorem responseChunks_peel (k : Nat) (s : PyStr) (hk : 0 < k) (hs : s ≠ []) :
    Server.responseChunks k s = s.take k :: Server.responseChunks k (s.drop k) := by
  have hlen : 0 < s.length := List.length_pos.mpr hs
  rw [Server.responseChunks, Server.responseChunks,
    pyRange_pos _ _ hk hlen, List.map_cons, List.map_map, List.length_drop]
  refine congrArg₂ (· :: ·) (by simp) ?_
  apply List.map_congr_left
  intro i hi
  simp only [Function.comp_apply]
  have hdrop : (s.drop k).drop i = s.drop (i + k) := by
    rw [List.drop_drop, Nat.add_comm]
  rw [hdrop]

theorem frameSeq_sendFramedResponse (k : Nat) (sid : Int) (hk : 0 < k) :
    ∀ (n : Nat) (s : PyStr), s.length = n →
      FrameSeq sid (Server.sendFramedResponse k sid s) s := by
  intro n
  induction n using Nat.strong_induction_on with
  | _ n ih =>
    intro s hn
    match s with
    | [] => rw [sendFramedResponse_nil]; exact .nil
    | c :: t =>
      have hs : (c :: t : PyStr) ≠ [] := by simp
      rw [sendFramedResponse_peel k sid _ hk hs]
      by_cases hle : (c :: t : PyStr).length ≤ k
      · rw [if_pos hle, List.take_of_length_le hle, List.drop_eq_nil_of_le hle,
          sendFramedResponse_nil]
        exact .last _
      · rw [if_neg hle]
        have htl : ((c :: t : PyStr).drop k).length < n := by
          rw [List.length_drop]; omega
        have hrec := ih _ (hn ▸ htl) ((c :: t : PyStr).drop k) rfl
        have := FrameSeq.more ((c :: t : PyStr).take k) _ _ hrec
        rwa [List.take_append_drop] at this

-- ### Demultiplexer lemmas

theorem drainFuel_nil_buffer (expected : Int) (fuel : Nat) (acc : List PyStr) :
    Proxy.drainFuel expected fuel acc [] = .done acc [] := by
  match fuel with
  | 0 => rfl
  | f + 1 => rw [Proxy.drainFuel]; rfl

theorem hasCompleteFrame_of_count {c : PyStr} (h : 2 ≤ c.count '|') :
    Proxy.hasCompleteFrame c = true := by
  rw [Proxy.hasCompleteFrame]
  exact decide_eq_true h

theorem drainBuffer_frame (expected : Int) (acc : List PyStr) {c : PyStr}
    {sid e : Int} {pl : PyStr} (hp : Proxy.parseFrame c = some (sid, e, pl)) :
    Proxy.drainBuffer expected acc c =
      if sid = expected then
        (if e = 1 then .finished (acc ++ [pl]).flatten else .done (acc ++ [pl]) [])
      else .done acc [] := by
  have hcount := parseFrame_some_count hp
  have hcf := hasCompleteFrame_of_count hcount
  have hext := extractFrame_of_count hcount
  rw [Proxy.drainBuffer, Proxy.drainFuel, if_pos hcf]
  simp only [hext, hp]
  by_cases hsid : sid = expected
  · rw [if_pos hsid, if_neg (by simpa using hsid)]
    by_cases he : e = 1
    · rw [if_pos he, if_pos he]
    · rw [if_neg he, if_neg he, drainFuel_nil_buffer]
  · rw [if_neg hsid, if_pos (by simpa using hsid), drainFuel_nil_buffer]

theorem receiveLoop_spec (expected : Int) :
    ∀ (cs : List PyStr) (acc fs : List PyStr) (p : PyStr),
      FrameSeq expected fs p →
      cs.filter (Proxy.frameForStream expected) = fs →
      (∀ c ∈ cs, (Proxy.parseFrame c).isSome = true) →
      Proxy.receiveLoop expected [] acc cs = acc.flatten ++ p := by
  intro cs
  induction cs with
  | nil =>
    intro acc fs p hseq hfilter hall
    rw [List.filter_nil] at hfilter
    cases hfilter ▸ hseq
    simp [Proxy.receiveLoop]
  | cons c rest ih =>
    intro acc fs p hseq hfilter hall
    have hc := hall c (List.mem_cons_self c rest)
    obtain ⟨⟨sid, e, pl⟩, hp⟩ := Option.isSome_iff_exists.mp hc
    have hrest : ∀ x ∈ rest, (Proxy.parseFrame x).isSome = true :=
      fun x hx => hall x (List.mem_cons_of_mem c hx)
    rw [Proxy.receiveLoop, List.nil_append]
    by_cases hsid : sid = expected
    · subst hsid
      have hmatch : Proxy.frameForStream sid c = true := by
        rw [Proxy.frameForStream, hp]
        exact beq_self_eq_true sid
      rw [List.filter_cons_of_pos hmatch] at hfilter
      rw [drainBuffer_frame sid acc hp, if_pos rfl]
      cases hseq with
      | nil => exact absurd hfilter (by simp)
      | last =>
        rw [List.cons_eq_cons] at hfilter
        obtain ⟨hceq, hre⟩ := hfilter
        have hp0 := parseFrame_mkFrame sid 1 p
        rw [← hceq, hp] at hp0
        obtain ⟨he, hpl⟩ : e = ((1 : Nat) : Int) ∧ pl = p := by
          simpa using hp0
        rw [if_pos (by simpa using he)]
        subst hpl
        simp
      | more q rest2 fs2 hseq2 =>
        rw [List.cons_eq_cons] at hfilter
        obtain ⟨hceq, hre⟩ := hfilter
        have hp0 := parseFrame_mkFrame sid 0 q
        rw [← hceq, hp] at hp0
        obtain ⟨he, hpl⟩ : e = ((0 : Nat) : Int) ∧ pl = q := by
          simpa using hp0
        rw [if_neg (by simp [he])]
        subst hpl
        have hrec := ih (acc ++ [pl]) fs2 rest2 hseq2 hre hrest
        show Proxy.receiveLoop sid [] (acc ++ [pl]) rest = acc.flatten ++ (pl ++ rest2)
        rw [hrec]
        simp
    · have hmatch : Proxy.frameForStream expected c = false := by
        rw [Proxy.frameForStream, hp]
        exact beq_eq_false_iff_ne.mpr hsid
      rw [List.filter_cons_of_neg (by simp [hmatch])] at hfilter
      rw [drainBuffer_frame expected acc hp, if_neg hsid]
      exact ih acc fs p hseq hfilter hrest

-- ### Stream id allocator lemmas

theorem allocStreamIds_eq (n : Nat) :
    ∀ st, Proxy.allocStreamIds st n = (List.range n).map (fun i => i + st) := by
  induction n with
  | zero => intro st; rfl
  | succ n ih =>
    intro st
    rw [Proxy.allocStreamIds]
    simp only [Proxy.stream_id_gen_next]
    rw [ih (st + 1), List.range_succ_eq_map, List.map_cons, List.map_map]
    refine congrArg₂ (· :: ·) (by omega) ?_
    apply List.map_congr_left
    intro j hj
    simp only [Function.comp_apply]
    omega

-- ### CRLF split and join lemmas

theorem splitCRLF_crlf (rest : PyStr) :
    splitCRLF ('\r' :: '\n' :: rest) = [] :: splitCRLF rest := rfl

theorem splitCRLF_single (c : Char) : splitCRLF [c] = [[c]] := by
  rw [splitCRLF.eq_def]
  split
  · rename_i heq
    exact absurd heq (by simp)
  · rename_i rest2 heq
    exact absurd heq (by simp)
  · rename_i c2 rest2 hcond heq
    rw [List.cons_eq_cons] at heq
    rw [heq.1, ← heq.2]
    rfl

theorem splitCRLF_cons_cons (c d : Char) (rest : PyStr) (h : ¬(c = '\r' ∧ d = '\n')) :
    splitCRLF (c :: d :: rest) = consHead c (splitCRLF (d :: rest)) := by
  rw [splitCRLF.eq_def]
  split
  · rename_i heq
    exact absurd heq (by simp)
  · rename_i rest2 heq
    rw [List.cons_eq_cons] at heq
    obtain ⟨hc, heq2⟩ := heq
    rw [List.cons_eq_cons] at heq2
    exact absurd ⟨hc, heq2.1⟩ h
  · rename_i c2 rest2 hcond heq2
    rw [List.cons_eq_cons] at heq2
    rw [heq2.1, heq2.2]

theorem splitCRLF_ne_nil (s : PyStr) : splitCRLF s ≠ [] := by
  match s with
  | [] => exact List.cons_ne_nil _ _
  | [c] => rw [splitCRLF_single]; exact List.cons_ne_nil _ _
  | c :: d :: rest =>
    by_cases h : c = '\r' ∧ d = '\n'
    · obtain ⟨rfl, rfl⟩ := h
      rw [splitCRLF_crlf]
      exact List.cons_ne_nil _ _
    · rw [splitCRLF_cons_cons c d rest h]
      exact consHead_ne_nil _ _

theorem joinCRLF_consHead (c : Char) (l : List PyStr) (h : l ≠ []) :
    joinCRLF (consHead c l) = c :: joinCRLF l := by
  match l with
  | [] => exact absurd rfl h
  | [x] => rfl
  | x :: y :: xs => rfl

theorem joinCRLF_splitCRLF_aux :
    ∀ (n : Nat) (s : PyStr), s.length = n → joinCRLF (splitCRLF s) = s := by
  intro n
  induction n using Nat.strong_induction_on with
  | _ n ih =>
    intro s hn
    match s with
    | [] => rfl
    | [c] => rw [splitCRLF_single]; rfl
    | c :: d :: rest =>
      by_cases h : c = '\r' ∧ d = '\n'
      · obtain ⟨rfl, rfl⟩ := h
        rw [splitCRLF_crlf]
        obtain ⟨x, xs, hx⟩ := List.exists_cons_of_ne_nil (splitCRLF_ne_nil rest)
        rw [hx, joinCRLF, List.nil_append, ← hx,
          ih rest.length (by subst hn; simp; omega) rest rfl]
      · rw [splitCRLF_cons_cons c d rest h,
          joinCRLF_consHead _ _ (splitCRLF_ne_nil _),
          ih (d :: rest).length (by subst hn; simp) (d :: rest) rfl]

theorem joinCRLF_splitCRLF (s : PyStr) : joinCRLF (splitCRLF s) = s :=
  joinCRLF_splitCRLF_aux s.length s rfl

-- ### Claims

/-- Claim C1, as amended: for every buffer with at least two delimiters
(so at least one complete frame is present, possibly followed by more
bytes), `extractFrame` returns the entire buffer as the single extracted
frame and the updated buffer is always empty; on a split failure (fewer
than two delimiters) the buffer is returned unchanged with no frame. -/
theorem claim_C1 (buffer : PyStr) :
    (2 ≤ buffer.count '|' → Proxy.extractFrame buffer = (some buffer, [])) ∧
    (buffer.count '|' < 2 → Proxy.extractFrame buffer = (none, buffer)) :=
  ⟨fun h => extractFrame_of_count h, fun h => extractFrame_of_count_lt h⟩

/-- Claim C1 counterexample: a buffer holding the complete frame `1|0|Hel`
followed by the further complete frame `1|1|!` is consumed in one piece:
the returned "frame" is the whole buffer (whose parsed payload `Hel1|1|!`
swallows the second frame), and the updated buffer is empty instead of
holding the remaining bytes `1|1|!` for the next frame. -/
theorem claim_C1_counterexample :
    Proxy.extractFrame ("1|0|Hel1|1|!".data) = (some ("1|0|Hel1|1|!".data), []) ∧
    Proxy.parseFrame ("1|0|Hel1|1|!".data) = some (1, 0, "Hel1|1|!".data) ∧
    "Hel1|1|!".data ≠ "Hel".data ∧
    ([] : PyStr) ≠ "1|1|!".data := by
  refine ⟨?_, ?_, ?_, ?_⟩ <;> decide

theorem claim_C1_witness :
    (2 ≤ ("1|0|Hel1|1|!".data).count '|' ∧
      Proxy.extractFrame ("1|0|Hel1|1|!".data) = (some ("1|0|Hel1|1|!".data), [])) ∧
    (("1|".data).count '|' < 2 ∧
      Proxy.extractFrame ("1|".data) = (none, "1|".data)) :=
  ⟨⟨by decide, (claim_C1 ("1|0|Hel1|1|!".data)).1 (by decide)⟩,
   ⟨by decide, (claim_C1 ("1|".data)).2 (by decide)⟩⟩

/-- Claim C4: for every stream id, end flag in `{0, 1}` and payload free of
the delimiter character, encoding the frame as `streamId|endFlag|payload`
(the f-string of `sendFramedResponse`) and decoding it with `parseFrame`
yields the original triple. -/
theorem claim_C4 (streamId : Int) (endFlag : Nat) (payload : PyStr)
    (hend : endFlag = 0 ∨ endFlag = 1) (hpipe : '|' ∉ payload) :
    Proxy.parseFrame (Server.mkFrame streamId endFlag payload) =
      some (streamId, (endFlag : Int), payload) :=
  parseFrame_mkFrame streamId endFlag payload

theorem claim_C4_witness :
    ((1 : Nat) = 0 ∨ (1 : Nat) = 1) ∧
    '|' ∉ "HTTP/1.1 200 OK".data ∧
    Proxy.parseFrame (Server.mkFrame 7 1 ("HTTP/1.1 200 OK".data)) =
      some (7, ((1 : Nat) : Int), "HTTP/1.1 200 OK".data) :=
  ⟨Or.inr rfl, by decide, claim_C4 7 1 ("HTTP/1.1 200 OK".data) (Or.inr rfl) (by decide)⟩

/-- Claim C10: `parseFrame` splits on at most two delimiters, so decoding a
single encoded frame returns the original triple even when the payload
itself contains the delimiter character; the no-delimiter precondition is
unnecessary for a lone frame. -/
theorem claim_C10 (streamId : Int) (endFlag : Nat)
    (hend : endFlag = 0 ∨ endFlag = 1) (payload : PyStr) :
    Proxy.parseFrame (Server.mkFrame streamId endFlag payload) =
      some (streamId, (endFlag : Int), payload) :=
  parseFrame_mkFrame streamId endFlag payload

theorem claim_C10_witness :
    ((0 : Nat) = 0 ∨ (0 : Nat) = 1) ∧
    '|' ∈ "a|b".data ∧
    Proxy.parseFrame (Server.mkFrame 3 0 ("a|b".data)) =
      some (3, ((0 : Nat) : Int), "a|b".data) :=
  ⟨Or.inl rfl, by decide, claim_C10 3 0 (Or.inl rfl) ("a|b".data)⟩

/-- Claim C6: the stream id allocator starts at 1 and is incremented
exactly once per allocation, so the first `N` allocations yield exactly
`1, 2, ..., N` — in particular `N` distinct integers with no duplicates. -/
theorem claim_C6 : ∀ N : Nat,
    Proxy.streamIdsIssued N = (List.range N).map (fun i => i + 1) ∧
    (Proxy.streamIdsIssued N).Nodup := by
  intro N
  refine ⟨allocStreamIds_eq N 1, ?_⟩
  rw [Proxy.streamIdsIssued, allocStreamIds_eq N 1]
  exact List.Nodup.map (fun a b hab => by omega) (List.nodup_range N)

/-- Claim C8: for every stream id and chunk size, an empty response
produces zero frames — in particular no end-flagged frame is ever written,
so a receiver awaiting that stream assembles nothing and only returns (the
empty string) when the connection closes. -/
theorem claim_C8 : ∀ (k : Nat) (sid : Int),
    Server.sendFramedResponse k sid [] = [] ∧
    Proxy.receiveFramedResponse sid (Server.sendFramedResponse k sid []) = [] := by
  intro k sid
  refine ⟨sendFramedResponse_nil k sid, ?_⟩
  rw [sendFramedResponse_nil]
  rfl

/-- Claim C2: for every delimiter-free payload and positive chunk size,
splitting the payload into end-flagged frames with `sendFramedResponse`
and reassembling with `receiveFramedResponse` yields exactly the original
payload, for any interleaving of well-formed frames carrying other stream
ids mixed in between (`cs` is the sequence of received chunks, one frame
per `recv`; its subsequence of frames for the awaited stream is exactly
the sent frame list, every other chunk parses as a frame): the unrelated
frames are skipped and do not corrupt the result. -/
theorem claim_C2 (sid : Int) (k : Nat) (payload : PyStr) (cs : List PyStr)
    (hk : 0 < k) (hpipe : '|' ∉ payload)
    (hall : ∀ c ∈ cs, (Proxy.parseFrame c).isSome = true)
    (hfilter : cs.filter (Proxy.frameForStream sid) =
      Server.sendFramedResponse k sid payload) :
    Proxy.receiveFramedResponse sid cs = payload := by
  rw [Proxy.receiveFramedResponse]
  have h := receiveLoop_spec sid cs [] (Server.sendFramedResponse k sid payload)
    payload (frameSeq_sendFramedResponse k sid hk payload.length payload rfl)
    hfilter hall
  simpa using h

theorem claim_C2_witness :
    (0 : Nat) < 3 ∧
    '|' ∉ "Hello!".data ∧
    (∀ c ∈ ["1|0|Hel".data, "2|0|xyz".data, "1|1|lo!".data],
      (Proxy.parseFrame c).isSome = true) ∧
    (["1|0|Hel".data, "2|0|xyz".data, "1|1|lo!".data].filter
        (Proxy.frameForStream 1) = Server.sendFramedResponse 3 1 ("Hello!".data)) ∧
    Proxy.receiveFramedResponse 1
      ["1|0|Hel".data, "2|0|xyz".data, "1|1|lo!".data] = "Hello!".data :=
  ⟨by decide, by decide, by decide, by decide,
    claim_C2 1 3 ("Hello!".data) ["1|0|Hel".data, "2|0|xyz".data, "1|1|lo!".data]
      (by decide) (by decide) (by decide) (by decide)⟩

/-- Claim C9: if the first line of an inbound request starts with
`STREAM-ID:` but the value after the colon does not parse as an integer,
`extractStreamIdAndCleanRequest` returns no stream id together with the
request text unchanged (the malformed line is not stripped), and
`handleRequestThread` consequently replies with a single unframed write. -/
theorem claim_C9 (handler : PyStr → PyStr) (request : PyStr)
    (hstart : ("STREAM-ID:".data).isPrefixOf ((splitCRLF request).headI) = true)
    (hbad : pyInt? (pyStrip ((splitColon ((splitCRLF request).headI)).getD 1 [])) = none) :
    Server.extractStreamIdAndCleanRequest request = (none, request) ∧
    Server.handleRequestThread handler request = .regular (handler request) := by
  have hex : Server.extractStreamIdAndCleanRequest request = (none, request) := by
    rw [Server.extractStreamIdAndCleanRequest]
    simp only [hstart, if_true, hbad]
    rw [joinCRLF_splitCRLF]
  refine ⟨hex, ?_⟩
  rw [Server.handleRequestThread]
  simp only [hex]

theorem claim_C9_witness :
    ("STREAM-ID:".data).isPrefixOf
      ((splitCRLF ("STREAM-ID: abc\r\nGET / HTTP/1.1".data)).headI) = true ∧
    pyInt? (pyStrip ((splitColon
      ((splitCRLF ("STREAM-ID: abc\r\nGET / HTTP/1.1".data)).headI)).getD 1 [])) = none ∧
    Server.extractStreamIdAndCleanRequest ("STREAM-ID: abc\r\nGET / HTTP/1.1".data) =
      (none, "STREAM-ID: abc\r\nGET / HTTP/1.1".data) ∧
    Server.handleRequestThread (fun r => r) ("STREAM-ID: abc\r\nGET / HTTP/1.1".data) =
      .regular ("STREAM-ID: abc\r\nGET / HTTP/1.1".data) := by
  have h := claim_C9 (fun r => r) ("STREAM-ID: abc\r\nGET / HTTP/1.1".data)
    (by decide) (by decide)
  exact ⟨by decide, by decide, h.1, h.2⟩

/-- Claim C7: when the proxy builds the upstream request (the header list
`GET path VERSION` plus the cache lookup for the resolved filename, exactly
as `handleRequest` does), a missing cache entry yields a request that is
just the request line and blank line — no header line carries
`If-Modified-Since` — while an existing entry yields a request whose added
header line is `If-Modified-Since: ` followed by exactly the entry's
stored last-modified timestamp. -/
theorem claim_C7 (cache : Proxy.Cache) (path : PyStr) :
    (Proxy.cacheGet cache (Proxy.fileNameOf path) = none →
      Proxy.createRequest (Proxy.requestHeaders path)
          (Proxy.cacheGet cache (Proxy.fileNameOf path)) =
        ("GET ".data ++ path ++ ' ' :: Proxy.VERSION) ++ "\r\n\r\n".data ∧
      ∀ l ∈ Proxy.createRequestLines (Proxy.requestHeaders path)
          (Proxy.cacheGet cache (Proxy.fileNameOf path)),
        ("If-Modified-Since:".data).isPrefixOf l = false) ∧
    (∀ e, Proxy.cacheGet cache (Proxy.fileNameOf path) = some e →
      ("If-Modified-Since: ".data ++ e.last_modified) ∈
        Proxy.createRequestLines (Proxy.requestHeaders path)
          (Proxy.cacheGet cache (Proxy.fileNameOf path)) ∧
      Proxy.createRequest (Proxy.requestHeaders path)
          (Proxy.cacheGet cache (Proxy.fileNameOf path)) =
        ("GET ".data ++ path ++ ' ' :: Proxy.VERSION) ++
          '\r' :: '\n' :: ("If-Modified-Since: ".data ++ e.last_modified) ++
          "\r\n\r\n".data) := by
  constructor
  · intro hnone
    rw [hnone]
    constructor
    · rfl
    · intro l hl
      rw [Proxy.createRequestLines, Proxy.requestHeaders] at hl
      simp only [List.append_nil, List.mem_singleton] at hl
      subst hl
      show ("If-Modified-Since:".data).isPrefixOf
        ('G' :: ("ET ".data ++ path ++ ' ' :: Proxy.VERSION)) = false
      rw [List.isPrefixOf]
      simp
  · intro e hsome
    rw [hsome]
    constructor
    · rw [Proxy.createRequestLines, Proxy.requestHeaders]
      simp
    · rfl

theorem claim_C7_witness :
    Proxy.cacheGet [] (Proxy.fileNameOf ("/a.html".data)) = none ∧
    Proxy.createRequest (Proxy.requestHeaders ("/a.html".data))
        (Proxy.cacheGet [] (Proxy.fileNameOf ("/a.html".data))) =
      ("GET ".data ++ "/a.html".data ++ ' ' :: Proxy.VERSION) ++ "\r\n\r\n".data ∧
    Proxy.cacheGet
        [("a.html".data,
          ⟨"Mon, 01 Jan 2024 00:00:00 GMT".data, "<h1>hi</h1>".data⟩)]
        (Proxy.fileNameOf ("/a.html".data)) =
      some ⟨"Mon, 01 Jan 2024 00:00:00 GMT".data, "<h1>hi</h1>".data⟩ ∧
    ("If-Modified-Since: ".data ++ "Mon, 01 Jan 2024 00:00:00 GMT".data) ∈
      Proxy.createRequestLines (Proxy.requestHeaders ("/a.html".data))
        (Proxy.cacheGet
          [("a.html".data,
            ⟨"Mon, 01 Jan 2024 00:00:00 GMT".data, "<h1>hi</h1>".data⟩)]
          (Proxy.fileNameOf ("/a.html".data))) := by
  have h1 := (claim_C7 [] ("/a.html".data)).1 (by decide)
  have h2 := (claim_C7
    [("a.html".data, ⟨"Mon, 01 Jan 2024 00:00:00 GMT".data, "<h1>hi</h1>".data⟩)]
    ("/a.html".data)).2
    ⟨"Mon, 01 Jan 2024 00:00:00 GMT".data, "<h1>hi</h1>".data⟩ (by decide)
  exact ⟨by decide, h1.1, by decide, h2.1⟩

/-- Claim C3, as amended: if the upstream reply to a proxied request has
status 304 but the cache has no entry for the resolved filename, the
proxy's `handleRequest` relays the upstream 304 response unchanged to the
requester (the `statusCode == 304 and cached` guard fails and the response
falls through to the relay branch); it does not produce a 500-equivalent
and does not fabricate content, and the cache is left unchanged. -/
theorem claim_C3 (now : PyStr) (cache : Proxy.Cache) (upstream : PyStr → PyStr)
    (request m path tok : PyStr)
    (hreq : pySplitWs ((splitCRLF request).headI) = [m, path, Proxy.VERSION])
    (hmiss : Proxy.cacheGet cache (Proxy.fileNameOf path) = none)
    (htok : (pySplitWs ((splitCRLF (upstream (Proxy.createRequest
      (Proxy.requestHeaders path) none))).headI))[1]? = some tok)
    (hint : pyInt? tok = some 304) :
    Proxy.handleRequest now cache upstream request =
      (upstream (Proxy.createRequest (Proxy.requestHeaders path) none), cache) := by
  rw [Proxy.handleRequest, hreq]
  simp only [hmiss, htok, hint]
  rw [if_neg (by simp)]
  rw [if_neg (by decide), if_neg (by simp)]

/-- Claim C3 counterexample: with an empty cache, a request for `/a.html`
whose upstream reply is `HTTP/1.1 304 Not Modified` makes `handleRequest`
return that 304 response itself (status line `HTTP/1.1 304`, not a
500-equivalent with diagnostic text), leaving the cache empty. -/
theorem claim_C3_counterexample :
    Proxy.handleRequest [] [] (fun _ => "HTTP/1.1 304 Not Modified\r\n\r\n".data)
        ("GET /a.html HTTP/1.1".data) =
      ("HTTP/1.1 304 Not Modified\r\n\r\n".data, []) ∧
    ("HTTP/1.1 500".data).isPrefixOf ("HTTP/1.1 304 Not Modified\r\n\r\n".data) = false ∧
    ("HTTP/1.1 304".data).isPrefixOf ("HTTP/1.1 304 Not Modified\r\n\r\n".data) = true := by
  refine ⟨?_, ?_, ?_⟩ <;> decide

theorem claim_C3_witness :
    pySplitWs ((splitCRLF ("GET /a.html HTTP/1.1".data)).headI) =
      ["GET".data, "/a.html".data, Proxy.VERSION] ∧
    Proxy.cacheGet [] (Proxy.fileNameOf ("/a.html".data)) = none ∧
    (pySplitWs ((splitCRLF ((fun _ => "HTTP/1.1 304 Not Modified\r\n\r\n".data)
      (Proxy.createRequest (Proxy.requestHeaders ("/a.html".data)) none))).headI))[1]? =
      some ("304".data) ∧
    pyInt? ("304".data) = some 304 ∧
    Proxy.handleRequest [] [] (fun _ => "HTTP/1.1 304 Not Modified\r\n\r\n".data)
        ("GET /a.html HTTP/1.1".data) =
      ((fun _ => "HTTP/1.1 304 Not Modified\r\n\r\n".data)
        (Proxy.createRequest (Proxy.requestHeaders ("/a.html".data)) none), []) := by
  have h := claim_C3 [] [] (fun _ => "HTTP/1.1 304 Not Modified\r\n\r\n".data)
    ("GET /a.html HTTP/1.1".data) ("GET".data) ("/a.html".data) ("304".data)
    (by decide) (by decide) (by decide) (by decide)
  exact ⟨by decide, by decide, by decide, by decide, h⟩

theorem sendFramed_structure (k : Nat) (sid : Int) (hk : 0 < k) :
    ∀ (n : Nat) (s : PyStr), s.length = n → s ≠ [] →
      Server.responseChunks k s ≠ [] ∧
      (Server.responseChunks k s).flatten = s ∧
      (∀ j, j + 1 < (Server.responseChunks k s).length →
        ((Server.responseChunks k s).getD j []).length = k) ∧
      Server.sendFramedResponse k sid s =
        (List.range (Server.responseChunks k s).length).map (fun j =>
          Server.mkFrame sid
            (if j + 1 = (Server.responseChunks k s).length then 1 else 0)
            ((Server.responseChunks k s).getD j [])) := by
  intro n
  induction n using Nat.strong_induction_on with
  | _ n ih =>
    intro s hn hs
    rw [responseChunks_peel k s hk hs, sendFramedResponse_peel k sid s hk hs]
    by_cases hle : s.length ≤ k
    · have hdrop : s.drop k = [] := List.drop_eq_nil_of_le hle
      have htake : s.take k = s := List.take_of_length_le hle
      rw [hdrop, responseChunks_nil, sendFramedResponse_nil, htake, if_pos hle]
      refine ⟨by simp, by simp, ?_, ?_⟩
      · intro j hj
        simp at hj
      · show [Server.mkFrame sid 1 s] = (List.range 1).map
          (fun j => Server.mkFrame sid (if j + 1 = 1 then 1 else 0) ([s].getD j []))
        rw [show List.range 1 = [0] from rfl, List.map_cons, List.map_nil,
          List.getD_cons_zero, if_pos rfl]
    · have hlenpos : 0 < s.length := List.length_pos.mpr hs
      have hdne : Server.responseChunks k s ≠ s.take k :: [] → True := fun _ => trivial
      have hdropne : s.drop k ≠ [] := by
        apply List.ne_nil_of_length_pos
        rw [List.length_drop]
        omega
      have hmlt : (s.drop k).length < n := by
        rw [List.length_drop]; omega
      obtain ⟨ih1, ih2, ih3, ih4⟩ := ih (s.drop k).length hmlt (s.drop k) rfl hdropne
      have hcslen : 0 < (Server.responseChunks k (s.drop k)).length :=
        List.length_pos.mpr ih1
      rw [if_neg (by omega)]
      refine ⟨by simp, ?_, ?_, ?_⟩
      · rw [List.flatten_cons, ih2, List.take_append_drop]
      · intro j hj
        match j with
        | 0 =>
          rw [List.getD_cons_zero, List.length_take]
          omega
        | j + 1 =>
          rw [List.getD_cons_succ]
          apply ih3
          simpa using hj
      · rw [List.length_cons, List.range_succ_eq_map, List.map_cons, List.map_map,
          ih4]
        refine congrArg₂ (· :: ·) ?_ ?_
        · rw [List.getD_cons_zero, if_neg (by omega)]
        · apply List.map_congr_left
          intro j hj
          simp only [Function.comp_apply, List.getD_cons_succ]
          congr 1
          by_cases hx : j + 1 = (Server.responseChunks k (s.drop k)).length
          · rw [if_pos hx, if_pos (by omega)]
          · rw [if_neg hx, if_neg (by omega)]

/-- Claim C5: for every positive chunk size and non-empty response,
`sendFramedResponse` splits the response into the chunk list
`responseChunks` (whose concatenation is the response and in which every
chunk but the last has length exactly the chunk size), turns every chunk
into exactly one frame carrying the matching stream id, sets the end flag
to 1 on the last frame and 0 on all earlier ones — and when the whole
response fits in a single chunk it produces exactly one frame with end
flag 1. -/
theorem claim_C5 (k : Nat) (sid : Int) (s : PyStr) (hk : 0 < k) (hs : s ≠ []) :
    Server.responseChunks k s ≠ [] ∧
    (Server.responseChunks k s).flatten = s ∧
    (∀ j, j + 1 < (Server.responseChunks k s).length →
      ((Server.responseChunks k s).getD j []).length = k) ∧
    Server.sendFramedResponse k sid s =
      (List.range (Server.responseChunks k s).length).map (fun j =>
        Server.mkFrame sid
          (if j + 1 = (Server.responseChunks k s).length then 1 else 0)
          ((Server.responseChunks k s).getD j [])) ∧
    (s.length ≤ k → Server.sendFramedResponse k sid s = [Server.mkFrame sid 1 s]) := by
  obtain ⟨h1, h2, h3, h4⟩ := sendFramed_structure k sid hk s.length s rfl hs
  refine ⟨h1, h2, h3, h4, ?_⟩
  intro hle
  rw [sendFramedResponse_peel k sid s hk hs, if_pos hle, List.take_of_length_le hle,
    List.drop_eq_nil_of_le hle, sendFramedResponse_nil]

theorem claim_C5_witness :
    (0 : Nat) < 3 ∧ "Hello!".data ≠ [] ∧
    (Server.responseChunks 3 ("Hello!".data) ≠ [] ∧
      (Server.responseChunks 3 ("Hello!".data)).flatten = "Hello!".data ∧
      (∀ j, j + 1 < (Server.responseChunks 3 ("Hello!".data)).length →
        ((Server.responseChunks 3 ("Hello!".data)).getD j []).length = 3) ∧
      Server.sendFramedResponse 3 2 ("Hello!".data) =
        (List.range (Server.responseChunks 3 ("Hello!".data)).length).map (fun j =>
          Server.mkFrame 2
            (if j + 1 = (Server.responseChunks 3 ("Hello!".data)).length then 1 else 0)
            ((Server.responseChunks 3 ("Hello!".data)).getD j [])) ∧
      (("Hello!".data).length ≤ 3 →
        Server.sendFramedResponse 3 2 ("Hello!".data) =
          [Server.mkFrame 2 1 ("Hello!".data)])) :=
  ⟨by decide, by decide, claim_C5 3 2 ("Hello!".data) (by decide) (by decide)⟩
